import Mathlib

/-!
Verification of the `letclone` crate (src/src/lib.rs): a shallow embedding of
the `clone!` procedural macro. The macro parses a comma-separated list of
items, each an optional `mut` marker followed by an expression, classifies
each expression (named field access, method call, bare path; tuple-index
field access and everything else are hard errors), and renders one
`let [mut] name = target.clone();` statement per item, in input order.

Modelling conventions:
- The syn expression grammar is external to the crate (the crate calls
  `input.parse::<syn::Expr>()`), so a successfully parsed expression is one
  pre-lexed token `Token.exprTok e`; the list parser only ever inspects the
  `mut` keyword and commas, exactly as `CloneExprList::parse` does via
  `peek`. An input that cannot start an expression (such as a stray comma,
  or end of input) makes the embedded expression parse fail, as syn does.
- Rust panics inside `ToTokens::to_tokens` abort the whole macro expansion,
  so both `syn::Result` errors and panics are modelled as `Except.error`.
- A rendered `proc_macro2::TokenStream` is modelled as a `String` in the
  canonical spacing the crate documentation uses (`let b = a.b.clone();`);
  the output of the whole macro is the list of per-item statements, which
  the real code concatenates into one stream in the same order.
-/

namespace Letclone

/-- Model of `syn::Member`: a named field or a positional (tuple) index. -/
inductive Member where
  | named (ident : String)
  | unnamed (index : Nat)
deriving DecidableEq, Repr

/-- Model of the fragment of `syn::Expr` the crate can receive: the three
supported shapes (path, named-field access, method call) plus the
unsupported shapes exercised by the spec (plain call, indexing, binary
operators, literals, parentheses, blocks). -/
inductive Expr where
  | path (first : String) (rest : List String)
  | field (base : Expr) (member : Member)
  | methodCall (receiver : Expr) (method : String) (args : List Expr)
  | call (func : Expr) (args : List Expr)
  | index (base : Expr) (idx : Expr)
  | binary (lhs : Expr) (op : String) (rhs : Expr)
  | lit (text : String)
  | paren (inner : Expr)
  | block (body : String)
deriving Repr

mutual

/-- Source-text rendering of an expression, modelling `to_token_stream`
and the `quote!` interpolation of an expression. -/
def Expr.render : Expr → String
  | .path first rest => String.intercalate "::" (first :: rest)
  | .field base (.named f) => base.render ++ "." ++ f
  | .field base (.unnamed i) => base.render ++ "." ++ toString i
  | .methodCall receiver m args =>
      receiver.render ++ "." ++ m ++ "(" ++ renderArgs args ++ ")"
  | .call func args => func.render ++ "(" ++ renderArgs args ++ ")"
  | .index base idx => base.render ++ "[" ++ idx.render ++ "]"
  | .binary lhs op rhs => lhs.render ++ " " ++ op ++ " " ++ rhs.render
  | .lit text => text
  | .paren inner => "(" ++ inner.render ++ ")"
  | .block body => "\x7b" ++ body ++ "\x7d"

/-- Rendering of a comma-separated argument list. -/
def renderArgs : List Expr → String
  | [] => ""
  | [e] => e.render
  | e :: rest => e.render ++ ", " ++ renderArgs rest

end

/-- Model of the tokens the list parser itself inspects: the `mut` keyword,
the comma separator, and a whole expression as parsed by the delegated
expression grammar (see the module comment). -/
inductive Token where
  | mutKw
  | comma
  | exprTok (e : Expr)
deriving Repr

/-- Model of `struct CloneExpr`: optional `mut` modifier plus the inner
expression. -/
structure CloneExpr where
  mutability : Bool
  inner : Expr
deriving Repr

/-- The message `CloneExpr::parse` attaches when the inner expression parse
fails. -/
def exprErrMsg : String :=
  "expected a valid expression: field access (a.b), method call (a.method()), or path (var)"

/-- Every way `clone!` can fail: a wrapped item parse error from
`CloneExprList::parse`, the empty-list error, leftover tokens rejected by
`parse_macro_input!`, and the two panics in `CloneExpr::to_tokens`. -/
inductive Error where
  | listParseError (msg : String)
  | emptyList
  | unexpectedToken
  | tupleIndexPanic (index : Nat)
  | unsupportedPanic (rendered : String)
deriving DecidableEq, Repr

/-- The diagnostic text each error surfaces, following the format strings
in the source. -/
def Error.message : Error → String
  | .listParseError msg => "failed to parse clone expression: " ++ msg
  | .emptyList => "clone! macro requires at least one expression"
  | .unexpectedToken => "unexpected token"
  | .tupleIndexPanic i =>
      "clone! macro does not support tuple index access (e.g., a.0), please use named fields: "
        ++ toString i
  | .unsupportedPanic rendered =>
      "clone! macro does not support this expression type. Supported types: field access (a.b), method call (a.method()), path (var). Got: "
        ++ rendered

/-- Model of `impl Parse for CloneExpr`: peek and consume an optional `mut`,
then parse one expression, remapping an expression parse failure to
`exprErrMsg`. Returns the parsed item and the unconsumed tokens. -/
def CloneExpr.parse : List Token → Except String (CloneExpr × List Token)
  | .mutKw :: .exprTok e :: rest => .ok ({ mutability := true, inner := e }, rest)
  | .exprTok e :: rest => .ok ({ mutability := false, inner := e }, rest)
  | _ => .error exprErrMsg

/-- Model of the `while !input.is_empty()` loop of
`impl Parse for CloneExprList`: parse one item (wrapping its error into the
`failed to parse clone expression` diagnostic), push it, consume a
following comma and continue, or stop. The steps of `CloneExpr.parse` are
inlined into the patterns so the loop is structurally recursive; the lemma
`parseLoop_unfold` below proves each iteration is exactly
`CloneExpr.parse` followed by the comma check. -/
def CloneExprList.parseLoop : List Token → List CloneExpr →
    Except Error (List CloneExpr × List Token)
  | [], acc => .ok (acc.reverse, [])
  | .mutKw :: .exprTok e :: .comma :: rest, acc =>
      CloneExprList.parseLoop rest ({ mutability := true, inner := e } :: acc)
  | .mutKw :: .exprTok e :: rest, acc =>
      .ok (({ mutability := true, inner := e } :: acc).reverse, rest)
  | .exprTok e :: .comma :: rest, acc =>
      CloneExprList.parseLoop rest ({ mutability := false, inner := e } :: acc)
  | .exprTok e :: rest, acc =>
      .ok (({ mutability := false, inner := e } :: acc).reverse, rest)
  | _ :: _, _ => .error (.listParseError exprErrMsg)

theorem parseLoop_unfold (input : List Token) (acc : List CloneExpr)
    (hne : input ≠ []) :
    CloneExprList.parseLoop input acc =
      match CloneExpr.parse input with
      | .error msg => .error (.listParseError msg)
      | .ok (item, .comma :: rest2) => CloneExprList.parseLoop rest2 (item :: acc)
      | .ok (item, rest) => .ok ((item :: acc).reverse, rest) := by
  match input with
  | .mutKw :: .exprTok e :: .comma :: rest => rfl
  | .mutKw :: .exprTok e :: .mutKw :: rest => rfl
  | .mutKw :: .exprTok e :: .exprTok f :: rest => rfl
  | [.mutKw, .exprTok e] => rfl
  | .exprTok e :: .comma :: rest => rfl
  | .exprTok e :: .mutKw :: rest => rfl
  | .exprTok e :: .exprTok f :: rest => rfl
  | [.exprTok e] => rfl
  | .comma :: rest => rfl
  | [.mutKw] => rfl
  | .mutKw :: .comma :: rest => rfl
  | .mutKw :: .mutKw :: rest => rfl

/-- Model of `struct CloneExprList`. -/
structure CloneExprList where
  exprs : List CloneExpr
deriving Repr

/-- Model of `impl Parse for CloneExprList`: run the loop, then reject an
empty item list. -/
def CloneExprList.parse (input : List Token) :
    Except Error (CloneExprList × List Token) :=
  match CloneExprList.parseLoop input [] with
  | .error e => .error e
  | .ok (exprs, rest) =>
    if exprs.isEmpty then .error .emptyList
    else .ok ({ exprs := exprs }, rest)

/-- Rendering of one binding statement, the `quote!` template
`let [mut] name = target.clone();` shared by the three success branches of
`CloneExpr::to_tokens`. -/
def renderStmt (mutability : Bool) (name target : String) : String :=
  "let " ++ (if mutability then "mut " else "") ++ name ++ " = " ++ target ++ ".clone();"

/-- The trailing identifier of a path, modelling
`path.segments.last().unwrap().ident` (total because a parsed path has at
least one segment). -/
def lastSegment (first : String) : List String → String
  | [] => first
  | s :: rest => lastSegment s rest

/-- Model of `impl ToTokens for CloneExpr`: the exhaustive match over the
inner expression. Named field access binds the field name to
`base.field.clone()`; tuple-index access panics with a message naming the
index; a method call binds the method name to a clone of the whole call; a
path binds its last segment to a clone of the whole path; everything else
panics with a message carrying the rendered expression. -/
def CloneExpr.toTokens (c : CloneExpr) : Except Error String :=
  match c.inner with
  | .field base (.named fieldName) =>
      .ok (renderStmt c.mutability fieldName (base.render ++ "." ++ fieldName))
  | .field _ (.unnamed idx) => .error (.tupleIndexPanic idx)
  | .methodCall _ m _ => .ok (renderStmt c.mutability m c.inner.render)
  | .path first rest => .ok (renderStmt c.mutability (lastSegment first rest) c.inner.render)
  | other => .error (.unsupportedPanic other.render)

/-- Model of `impl ToTokens for CloneExprList`: render each item in order
into the shared output; the first panic aborts everything. -/
def CloneExprList.toTokens : List CloneExpr → Except Error (List String)
  | [] => .ok []
  | c :: rest =>
    match c.toTokens with
    | .error e => .error e
    | .ok s =>
      match CloneExprList.toTokens rest with
      | .error e => .error e
      | .ok ss => .ok (s :: ss)

/-- Model of the `clone` entry point: `parse_macro_input!` (which also
rejects leftover tokens) followed by rendering. On success the result is
the ordered list of emitted statements. -/
def expand (input : List Token) : Except Error (List String) :=
  match CloneExprList.parse input with
  | .error e => .error e
  | .ok (list, rest) =>
    if rest.isEmpty then CloneExprList.toTokens list.exprs
    else .error .unexpectedToken

/-- The item as a mutability flag and expression pair. -/
def mkItem (p : Bool × Expr) : CloneExpr :=
  { mutability := p.1, inner := p.2 }

/-- Classification and rendering of a single item. -/
def renderItem (p : Bool × Expr) : Except Error String :=
  (mkItem p).toTokens

/-- The tokens of one item: an optional `mut` keyword then the expression. -/
def itemTokens (p : Bool × Expr) : List Token :=
  (if p.1 then [Token.mutKw] else []) ++ [Token.exprTok p.2]

/-- The tokens of a comma-joined item list, with no trailing comma. -/
def listTokens : List (Bool × Expr) → List Token
  | [] => []
  | [p] => itemTokens p
  | p :: rest => itemTokens p ++ Token.comma :: listTokens rest

/-- Decides whether an expression falls to the catch-all `_` arm of the
match in `CloneExpr::to_tokens`: it is neither a field access (named or
positional), nor a method call, nor a path, so it matches none of the
three supported shapes. -/
def Expr.hitsCatchAll : Expr → Bool
  | .field .. => false
  | .methodCall .. => false
  | .path .. => false
  | _ => true

theorem strAppendAssoc (a b c : String) : a ++ b ++ c = a ++ (b ++ c) := by
  apply String.ext
  simp [String.data_append]

theorem parseLoop_item_last (m : Bool) (e : Expr) (acc : List CloneExpr) :
    CloneExprList.parseLoop (itemTokens (m, e)) acc =
      .ok (acc.reverse ++ [mkItem (m, e)], []) := by
  cases m <;>
    simp [itemTokens, CloneExprList.parseLoop, CloneExpr.parse, mkItem]

theorem parseLoop_item_trailing (m : Bool) (e : Expr) (acc : List CloneExpr) :
    CloneExprList.parseLoop (itemTokens (m, e) ++ [Token.comma]) acc =
      .ok (acc.reverse ++ [mkItem (m, e)], []) := by
  cases m <;>
    simp [itemTokens, CloneExprList.parseLoop, CloneExpr.parse, mkItem]

theorem parseLoop_item_step (m : Bool) (e : Expr) (rest : List Token)
    (acc : List CloneExpr) :
    CloneExprList.parseLoop (itemTokens (m, e) ++ Token.comma :: rest) acc =
      CloneExprList.parseLoop rest (mkItem (m, e) :: acc) := by
  cases m <;>
    simp [itemTokens, CloneExprList.parseLoop, CloneExpr.parse, mkItem]

theorem parseLoop_listTokens (p : Bool × Expr) (items : List (Bool × Expr))
    (acc : List CloneExpr) :
    CloneExprList.parseLoop (listTokens (p :: items)) acc =
      .ok (acc.reverse ++ (p :: items).map mkItem, []) := by
  induction items generalizing p acc with
  | nil =>
      rcases p with ⟨m, e⟩
      simpa [listTokens] using parseLoop_item_last m e acc
  | cons q items ih =>
      rcases p with ⟨m, e⟩
      rw [show listTokens ((m, e) :: q :: items)
            = itemTokens (m, e) ++ Token.comma :: listTokens (q :: items) from rfl,
          parseLoop_item_step, ih q]
      simp

theorem parseLoop_listTokens_trailing (p : Bool × Expr)
    (items : List (Bool × Expr)) (acc : List CloneExpr) :
    CloneExprList.parseLoop (listTokens (p :: items) ++ [Token.comma]) acc =
      .ok (acc.reverse ++ (p :: items).map mkItem, []) := by
  induction items generalizing p acc with
  | nil =>
      rcases p with ⟨m, e⟩
      simpa [listTokens] using parseLoop_item_trailing m e acc
  | cons q items ih =>
      rcases p with ⟨m, e⟩
      rw [show listTokens ((m, e) :: q :: items) ++ [Token.comma]
            = itemTokens (m, e) ++ Token.comma :: (listTokens (q :: items) ++ [Token.comma]) by
          simp [listTokens],
          parseLoop_item_step, ih q]
      simp

theorem expand_listTokens (p : Bool × Expr) (items : List (Bool × Expr)) :
    expand (listTokens (p :: items)) =
      CloneExprList.toTokens ((p :: items).map mkItem) := by
  simp [expand, CloneExprList.parse, parseLoop_listTokens]

theorem expand_listTokens_trailing (p : Bool × Expr)
    (items : List (Bool × Expr)) :
    expand (listTokens (p :: items) ++ [Token.comma]) =
      CloneExprList.toTokens ((p :: items).map mkItem) := by
  simp [expand, CloneExprList.parse, parseLoop_listTokens_trailing]

theorem toTokens_ok_cons (c : CloneExpr) (rest : List CloneExpr)
    (out : List String)
    (h : CloneExprList.toTokens (c :: rest) = .ok out) :
    ∃ s ss, c.toTokens = .ok s ∧ CloneExprList.toTokens rest = .ok ss
      ∧ out = s :: ss := by
  cases hc : c.toTokens with
  | error e => simp [CloneExprList.toTokens, hc] at h
  | ok s =>
    cases hr : CloneExprList.toTokens rest with
    | error e => simp [CloneExprList.toTokens, hc, hr] at h
    | ok ss =>
      refine ⟨s, ss, rfl, rfl, ?_⟩
      simp [CloneExprList.toTokens, hc, hr] at h
      exact h.symm

theorem toTokens_ok_length (l : List CloneExpr) (out : List String)
    (h : CloneExprList.toTokens l = .ok out) : out.length = l.length := by
  induction l generalizing out with
  | nil =>
      simp [CloneExprList.toTokens] at h
      simp [← h]
  | cons c rest ih =>
      obtain ⟨s, ss, _, hr, rfl⟩ := toTokens_ok_cons c rest out h
      simp [ih ss hr]

theorem toTokens_ok_get (l : List CloneExpr) (out : List String)
    (h : CloneExprList.toTokens l = .ok out) (k : Nat) (hk : k < l.length)
    (hk' : k < out.length) :
    (l.get ⟨k, hk⟩).toTokens = .ok (out.get ⟨k, hk'⟩) := by
  induction l generalizing out k with
  | nil => simp at hk
  | cons c rest ih =>
      obtain ⟨s, ss, hc, hr, rfl⟩ := toTokens_ok_cons c rest out h
      cases k with
      | zero => simpa using hc
      | succ k => exact ih ss hr k (by simpa using hk) (by simpa using hk')

theorem toTokens_first_error (good : List CloneExpr) (bad : CloneExpr)
    (post : List CloneExpr) (e : Error)
    (hgood : ∀ c ∈ good, ∃ s, CloneExpr.toTokens c = .ok s)
    (hbad : bad.toTokens = .error e) :
    CloneExprList.toTokens (good ++ bad :: post) = .error e := by
  induction good with
  | nil => simp [CloneExprList.toTokens, hbad]
  | cons c rest ih =>
      obtain ⟨s, hs⟩ := hgood c (by simp)
      have step := ih (fun c2 hc2 => hgood c2 (by simp [hc2]))
      simp [CloneExprList.toTokens, hs, step]

/-- C1: an item that is a named field access `base.f` expands successfully
to the single binding statement `let f = base.f.clone();`, binding the
field name to a clone of the field access. -/
theorem c1_named_field_access (base : Expr) (f : String) :
    expand [Token.exprTok (Expr.field base (Member.named f))] =
      .ok ["let " ++ f ++ " = " ++ base.render ++ "." ++ f ++ ".clone();"] := by
  simp [expand, CloneExprList.parse, CloneExprList.parseLoop, CloneExpr.parse,
        CloneExprList.toTokens, CloneExpr.toTokens, renderStmt, strAppendAssoc]

/-- Witness for C1 at the input `a.b`, which renders `let b = a.b.clone();`. -/
theorem c1_named_field_access_witness :
    expand [Token.exprTok (Expr.field (Expr.path "a" []) (Member.named "b"))] =
      .ok ["let b = a.b.clone();"] :=
  c1_named_field_access (Expr.path "a" []) "b"

/-- C2 counterexample: the input `f()` is a call-like expression whose
callee path has the trailing identifier `f`, yet expansion fails with the
generic unsupported-expression panic instead of succeeding with a binding
named `f`: only `syn::Expr::MethodCall` is accepted, plain `syn::Expr::Call`
falls to the catch-all branch. -/
theorem c2_call_counterexample :
    expand [Token.exprTok (Expr.call (Expr.path "f" []) [])] =
      .error (Error.unsupportedPanic "f()") := by
  rfl

/-- C2 (amended): for every item that is a method-call expression
`receiver.m(args)`, expansion succeeds, the binding name is the method
identifier `m`, and the render target duplicates the entire call
expression, giving `let m = receiver.m(args).clone();`. -/
theorem c2_method_call (receiver : Expr) (m : String) (args : List Expr) :
    expand [Token.exprTok (Expr.methodCall receiver m args)] =
      .ok ["let " ++ m ++ " = " ++ (Expr.methodCall receiver m args).render
            ++ ".clone();"] := by
  simp [expand, CloneExprList.parse, CloneExprList.parseLoop, CloneExpr.parse,
        CloneExprList.toTokens, CloneExpr.toTokens, renderStmt, strAppendAssoc]

/-- Witness for C2 at the input `a.m()`, which renders
`let m = a.m().clone();`. -/
theorem c2_method_call_witness :
    expand [Token.exprTok (Expr.methodCall (Expr.path "a" []) "m" [])] =
      .ok ["let m = a.m().clone();"] :=
  c2_method_call (Expr.path "a" []) "m" []

/-- C3: an item that is a bare path expands successfully, binding the
trailing path segment to a clone of the whole path; without the `mut`
marker the binding is non-mutable (`let x = x.clone();`), with the marker
it is mutable (`let mut x = x.clone();`). -/
theorem c3_path_bindings (first : String) (rest : List String) :
    expand [Token.exprTok (Expr.path first rest)] =
      .ok ["let " ++ lastSegment first rest ++ " = "
            ++ (Expr.path first rest).render ++ ".clone();"]
    ∧ expand [Token.mutKw, Token.exprTok (Expr.path first rest)] =
      .ok ["let " ++ "mut " ++ lastSegment first rest ++ " = "
            ++ (Expr.path first rest).render ++ ".clone();"] := by
  constructor <;>
    simp [expand, CloneExprList.parse, CloneExprList.parseLoop, CloneExpr.parse,
          CloneExprList.toTokens, CloneExpr.toTokens, renderStmt, strAppendAssoc]

/-- Witness for C3 at the inputs `x` and `mut x`. -/
theorem c3_path_bindings_witness :
    expand [Token.exprTok (Expr.path "x" [])] = .ok ["let x = x.clone();"]
    ∧ expand [Token.mutKw, Token.exprTok (Expr.path "x" [])] =
      .ok ["let mut x = x.clone();"] :=
  ⟨(c3_path_bindings "x" []).1, (c3_path_bindings "x" []).2⟩

/-- C4: a comma-joined list of N >= 1 items that expands successfully
yields exactly N statements, and the k-th statement is exactly the
rendering of the k-th item, so order is preserved and nothing is
deduplicated, even when two items derive the same binding name. -/
theorem c4_list_order (items : List (Bool × Expr)) (out : List String)
    (hne : items ≠ [])
    (hok : expand (listTokens items) = .ok out) :
    out.length = items.length
    ∧ ∀ (k : Nat) (hk : k < items.length) (hk2 : k < out.length),
        renderItem (items.get ⟨k, hk⟩) = .ok (out.get ⟨k, hk2⟩) := by
  match items with
  | p :: items =>
    rw [expand_listTokens] at hok
    refine ⟨by simpa using toTokens_ok_length _ _ hok, ?_⟩
    intro k hk hk2
    have hget := toTokens_ok_get _ _ hok k (by simpa using hk) hk2
    simp only [List.get_eq_getElem, List.getElem_map] at hget
    simpa [renderItem] using hget

/-- Witness for C4 at the duplicate-name input `a, a`: two statements come
out, both `let a = a.clone();`, emitted verbatim. -/
theorem c4_list_order_witness :
    (["let a = a.clone();", "let a = a.clone();"] : List String).length =
      ([(false, Expr.path "a" []), (false, Expr.path "a" [])]
        : List (Bool × Expr)).length :=
  (c4_list_order [(false, Expr.path "a" []), (false, Expr.path "a" [])]
    ["let a = a.clone();", "let a = a.clone();"] (by simp) rfl).1

/-- C5: when one item of the list fails classification, expansion returns
the error of the first failing item and no output at all; statements
already rendered for earlier valid items are discarded. -/
theorem c5_first_failure_aborts (pre : List (Bool × Expr)) (bad : Bool × Expr)
    (post : List (Bool × Expr)) (e : Error)
    (hpre : ∀ p ∈ pre, ∃ s, renderItem p = .ok s)
    (hbad : renderItem bad = .error e) :
    expand (listTokens (pre ++ bad :: post)) = .error e := by
  have key : CloneExprList.toTokens ((pre ++ bad :: post).map mkItem) =
      .error e := by
    rw [List.map_append, List.map_cons]
    apply toTokens_first_error
    · intro c hc
      obtain ⟨p, hp, rfl⟩ := List.mem_map.mp hc
      exact hpre p hp
    · exact hbad
  cases pre with
  | nil => simpa [expand_listTokens bad post] using key
  | cons q rest =>
      rw [show (q :: rest) ++ bad :: post = q :: (rest ++ bad :: post) from rfl,
          expand_listTokens q (rest ++ bad :: post)]
      simpa using key

/-- Witness for C5 at the input `a, a[0], b`: the middle item fails, the
whole expansion returns its unsupported-expression error. -/
theorem c5_first_failure_aborts_witness :
    expand (listTokens [(false, Expr.path "a" []),
        (false, Expr.index (Expr.path "a" []) (Expr.lit "0")),
        (false, Expr.path "b" [])]) =
      .error (Error.unsupportedPanic "a[0]") :=
  c5_first_failure_aborts [(false, Expr.path "a" [])]
    (false, Expr.index (Expr.path "a" []) (Expr.lit "0"))
    [(false, Expr.path "b" [])] (Error.unsupportedPanic "a[0]")
    (by
      intro p hp
      simp only [List.mem_singleton] at hp
      subst hp
      exact ⟨"let a = a.clone();", rfl⟩)
    rfl

/-- C6: a positional (tuple-index) field access fails with the dedicated
tuple-index panic whose message names the offending index, an error
distinct from the generic unsupported-expression panic of the catch-all
branch. -/
theorem c6_tuple_index_error (idx : Nat) (base : Expr) :
    expand [Token.exprTok (Expr.field base (Member.unnamed idx))] =
      .error (Error.tupleIndexPanic idx)
    ∧ (Error.tupleIndexPanic idx).message =
        "clone! macro does not support tuple index access (e.g., a.0), please use named fields: "
          ++ toString idx
    ∧ ∀ s, Error.tupleIndexPanic idx ≠ Error.unsupportedPanic s := by
  refine ⟨rfl, rfl, ?_⟩
  intro s hcon
  exact Error.noConfusion hcon

/-- Witness for C6 at the input `a.0`. -/
theorem c6_tuple_index_error_witness :
    expand [Token.exprTok (Expr.field (Expr.path "a" []) (Member.unnamed 0))] =
      .error (Error.tupleIndexPanic 0)
    ∧ Error.tupleIndexPanic 0 ≠ Error.unsupportedPanic "a.0" :=
  ⟨(c6_tuple_index_error 0 (Expr.path "a" [])).1,
   (c6_tuple_index_error 0 (Expr.path "a" [])).2.2 "a.0"⟩

/-- C7: every item (with or without the `mut` marker) whose expression
matches none of the three supported shapes, such as indexing, arithmetic,
literals, parentheses, or blocks, fails with the unsupported-expression
panic carrying the rendering of the offending expression. -/
theorem c7_unsupported_shapes (m : Bool) (e : Expr)
    (h : e.hitsCatchAll = true) :
    expand (itemTokens (m, e)) = .error (Error.unsupportedPanic e.render) := by
  cases m <;> cases e <;>
    simp_all [Expr.hitsCatchAll, itemTokens, expand, CloneExprList.parse,
      CloneExprList.parseLoop, CloneExprList.toTokens, CloneExpr.toTokens]

/-- Witness for C7 at the inputs `a[0]`, `1 + 1`, and the empty block,
whose renderings appear in the respective errors. -/
theorem c7_unsupported_shapes_witness :
    expand [Token.exprTok (Expr.index (Expr.path "a" []) (Expr.lit "0"))] =
      .error (Error.unsupportedPanic "a[0]")
    ∧ expand [Token.exprTok (Expr.binary (Expr.lit "1") "+" (Expr.lit "1"))] =
      .error (Error.unsupportedPanic "1 + 1")
    ∧ expand [Token.exprTok (Expr.block "")] =
      .error (Error.unsupportedPanic "\x7b\x7d") :=
  ⟨c7_unsupported_shapes false (Expr.index (Expr.path "a" []) (Expr.lit "0")) rfl,
   c7_unsupported_shapes false (Expr.binary (Expr.lit "1") "+" (Expr.lit "1")) rfl,
   c7_unsupported_shapes false (Expr.block "") rfl⟩

/-- C8: the empty input fails with the dedicated empty-list error carrying
the `at least one expression` diagnostic, a lone comma fails with the
wrapped item parse error, and a double comma inside `a,,b` fails the same
way instead of being skipped; the empty-list error is distinct from the
segment error. -/
theorem c8_empty_and_blank_segments :
    expand [] = .error Error.emptyList
    ∧ Error.emptyList.message = "clone! macro requires at least one expression"
    ∧ expand [Token.comma] = .error (Error.listParseError exprErrMsg)
    ∧ expand [Token.exprTok (Expr.path "a" []), Token.comma, Token.comma,
        Token.exprTok (Expr.path "b" [])] =
      .error (Error.listParseError exprErrMsg)
    ∧ Error.emptyList ≠ Error.listParseError exprErrMsg := by
  refine ⟨rfl, rfl, rfl, rfl, ?_⟩
  intro hcon
  exact Error.noConfusion hcon

/-- C9: a single trailing comma after a successfully expanding item list
changes nothing: the expansion with the trailing comma succeeds with the
same statements. -/
theorem c9_trailing_comma (items : List (Bool × Expr)) (out : List String)
    (hok : expand (listTokens items) = .ok out) :
    expand (listTokens items ++ [Token.comma]) = .ok out := by
  cases items with
  | nil => simp [listTokens, expand, CloneExprList.parse,
      CloneExprList.parseLoop] at hok
  | cons p items => rw [expand_listTokens_trailing, ← expand_listTokens p items, hok]

/-- Witness for C9 at the input `a,` versus `a`. -/
theorem c9_trailing_comma_witness :
    expand [Token.exprTok (Expr.path "a" []), Token.comma] =
      .ok ["let a = a.clone();"] :=
  c9_trailing_comma [(false, Expr.path "a" [])] ["let a = a.clone();"] rfl

/-- C10: classification looks only at the outermost node, so a named field
access and a method call expand successfully whatever the shape of the
base or receiver subexpression, even shapes rejected as top-level items. -/
theorem c10_outer_node_only (b : Expr) (f : String) (r : Expr) (m : String)
    (args : List Expr) :
    (expand [Token.exprTok (Expr.field b (Member.named f))]).isOk = true
    ∧ (expand [Token.exprTok (Expr.methodCall r m args)]).isOk = true :=
  ⟨rfl, rfl⟩

/-- Witness for C10 at the inputs `a[0].b` and `(1 + 1).m()`, whose bases
would fail as top-level items. -/
theorem c10_outer_node_only_witness :
    (expand [Token.exprTok (Expr.field
        (Expr.index (Expr.path "a" []) (Expr.lit "0"))
        (Member.named "b"))]).isOk = true
    ∧ (expand [Token.exprTok (Expr.methodCall
        (Expr.paren (Expr.binary (Expr.lit "1") "+" (Expr.lit "1")))
        "m" [])]).isOk = true :=
  c10_outer_node_only (Expr.index (Expr.path "a" []) (Expr.lit "0")) "b"
    (Expr.paren (Expr.binary (Expr.lit "1") "+" (Expr.lit "1"))) "m" []

end Letclone
